import Mathlib

/-!
Verification of the `ilml` chemistry and featurization core.

Shallow embedding of `src/ilml/chemistry.py`, `src/ilml/featurization/featurizers.py`,
`src/ilml/featurization/combining_rules.py` and (modelled from the spec, since the
module is absent from the sources) `src/ilml/memory.py`.

Modelling conventions:
* The external molecular-structure toolkit (RDKit) is modelled at its interface
  boundary: a `Mol` records the toolkit's answers (formal charge, atom symbols,
  the non-isomeric canonical SMILES that `MolToSmiles` would produce, molecular
  weight, and the set of SMARTS patterns that `HasSubstructMatch` reports as
  matching).  `MolFromSmiles` is a parameter `parse` returning `Except Err Mol`,
  per the spec's toolkit contract `parse(notation) -> structure | ParseError`.
* Python `float` values are modelled by `Rat` where only their arithmetic
  structure matters (combining rules, feature dictionaries); descriptor values
  fed to `float(...)` coercion are modelled by `PyObj`, which classifies a raw
  value by the observable behaviour of `float`: it yields a finite number,
  yields NaN, or raises `TypeError`/`ValueError`.
* Python exceptions become `Except Err`; dataclass `__post_init__` validation
  becomes smart constructors (`Ion.make`, `Cation.make`, `Anion.make`).
* Python `dict`s become insertion-ordered association lists with unique keys;
  SMILES strings are `List Char` so splitting on `"."` can be reasoned about.
-/

namespace ILML

/-- Error taxonomy: the typed errors of `ilml.exceptions` that the claims touch
(`InvalidChargeError`), the toolkit-level parse failure, and the Python builtin
errors `KeyError` and `ValueError` that the embedded code can raise. -/
inductive Err where
  | parseError (msg : String)
  | invalidChargeError (msg : String)
  | keyError (key : String)
  | valueError (msg : String)
deriving DecidableEq, Repr

/-- Interface-boundary model of an RDKit `Mol`: the data the core reads from the
toolkit about one parsed structure. `substructMatches` lists the SMARTS pattern
strings for which `HasSubstructMatch(MolFromSmarts(p))` is true. -/
structure Mol where
  charge : Int
  atomSymbols : List String
  canonicalSmiles : List Char
  molWt : Rat
  substructMatches : List String
deriving DecidableEq, Repr

/-- `Chem.GetFormalCharge`. -/
def getFormalCharge (m : Mol) : Int := m.charge

/-- `Mol.GetNumAtoms`. -/
def getNumAtoms (m : Mol) : Nat := m.atomSymbols.length

/-- `Descriptors.MolWt`. -/
def molWtOf (m : Mol) : Rat := m.molWt

/-- `mol.HasSubstructMatch(Chem.MolFromSmarts(p))`, at the toolkit boundary. -/
def hasSubstructMatch (m : Mol) (p : String) : Bool := m.substructMatches.contains p

/-- `Chem.MolToSmiles(mol, isomericSmiles=False)`, at the toolkit boundary. -/
def molToSmiles (m : Mol) : List Char := m.canonicalSmiles

/-- Python `f"{charge:+d}"`: the signed decimal rendering of an integer. -/
def formatSigned (i : Int) : String :=
  if 0 ≤ i then "+" ++ toString i else toString i

/-- The `Ion` dataclass: `smiles` plus the wrapped structure handle. -/
structure Ion where
  smiles : List Char
  rdkit_mol : Mol
deriving DecidableEq, Repr

/-- `Ion.charge` property. -/
def Ion.charge (i : Ion) : Int := getFormalCharge i.rdkit_mol

/-- `Ion.atom_count` property. -/
def Ion.atom_count (i : Ion) : Nat := getNumAtoms i.rdkit_mol

/-- `Ion.molecular_weight` property. -/
def Ion.molecular_weight (i : Ion) : Rat := molWtOf i.rdkit_mol

/-- `Ion.element_set` property. -/
def Ion.element_set (i : Ion) : Finset String := i.rdkit_mol.atomSymbols.toFinset

/-- `Ion(smiles, mol)` construction: `__post_init__` raises `InvalidChargeError`
on zero charge. -/
def Ion.make (smiles : List Char) (mol : Mol) : Except Err Ion :=
  if getFormalCharge mol = 0 then
    .error (.invalidChargeError "ions must have a non-zero charge")
  else
    .ok ⟨smiles, mol⟩

/-- `Cation(smiles, mol)` construction: `Ion.__post_init__` (zero-charge check)
runs first via `super()`, then the sign check with the `f"...got {charge:+d}"`
message. -/
def Cation.make (smiles : List Char) (mol : Mol) : Except Err Ion := do
  let i ← Ion.make smiles mol
  if i.charge < 0 then
    .error (.invalidChargeError ("cations must have a positive charge, got " ++
      formatSigned i.charge))
  else
    .ok i

/-- `Anion(smiles, mol)` construction: zero-charge check via `super()`, then
the sign check. -/
def Anion.make (smiles : List Char) (mol : Mol) : Except Err Ion := do
  let i ← Ion.make smiles mol
  if 0 < i.charge then
    .error (.invalidChargeError ("anions must have a negative charge, got " ++
      formatSigned i.charge))
  else
    .ok i

/-- `cls.from_smiles(smiles)`: parse, re-canonicalize (non-isomeric), construct
`cls(smiles, rdkit_molecule)`. `mk` is the constructor of the concrete class
(`Ion.make`, `Cation.make` or `Anion.make`), `parse` the toolkit's
`MolFromSmiles` per the spec contract. -/
def ionFromSmiles (mk : List Char → Mol → Except Err Ion)
    (parse : List Char → Except Err Mol) (smiles : List Char) : Except Err Ion := do
  let rdkit_molecule ← parse smiles
  let smiles := molToSmiles rdkit_molecule
  mk smiles rdkit_molecule

/-- Inner loop of `chemical_family`: does any pattern of one family match? -/
def familyMatch (m : Mol) (pats : List String) : Bool :=
  pats.any (fun p => hasSubstructMatch m p)

/-- `Ion.chemical_family` body over an explicit `family_smarts_patterns` table
(`dict` insertion order becomes list order): return the first family one of
whose patterns matches, else `none`. -/
def chemicalFamily (tbl : List (String × List String)) (m : Mol) : Option String :=
  match tbl with
  | [] => none
  | (family_name, pats) :: rest =>
    if familyMatch m pats then some family_name else chemicalFamily rest m

/-- `Ion.chemical_family`, dispatching on the class-scoped table. -/
def Ion.chemical_family_of (tbl : List (String × List String)) (i : Ion) :
    Option String :=
  chemicalFamily tbl i.rdkit_mol

/-- `Ion.family_smarts_patterns` (base class): empty. -/
def Ion.family_smarts_patterns : List (String × List String) := []

/-- `Cation.family_smarts_patterns`, in source insertion order. -/
def Cation.family_smarts_patterns : List (String × List String) :=
  [ ("imidazolium", ["c1c[n+]cn1"]),
    ("pyrazolium", ["c1cn[n+]c1"]),
    ("triazolium", ["c1nnc[n+]1", "c1c[n+]nn1", "c1n[n+]cn1"]),
    ("thiazolium", ["c1csc[n+]1"]),
    ("quinlolinium", ["c1ccc2[n+]cccc2c1", "c1ccc2c[n+]ccc2c1"]),
    ("pyridinium", ["c1cc[n+]cc1"]),
    ("pyrrolidinium", ["[#6]-1-[#6]-[#6]-[#7+]-[#6]-1"]),
    ("piperidinium", ["[#6]-1-[#6]-[#6]-[#7+]-[#6]-[#6]-1"]),
    ("piperazinium", ["[#6]-1-[#6]-[#7]-[#6]-[#6]-[#7]-1"]),
    ("morpholinium", ["[#6]-1-[#6]-[#8]-[#6]-[#6]-[#7+]-1"]),
    ("phosphonium", ["[#15+]"]),
    ("guanidinium", ["[#7]-[#6](-[#7])=[#7+]"]),
    ("amidium", ["[!#1!#6][#6]=[#7+]"]),
    ("ammonium", ["[#7+]"]),
    ("cyclopropenium", ["[#7]-[#6]1=,:[#6](-[#7])[#6+]1-[#7]"]),
    ("cyclic sulfonium",
      ["[#6]-1-[#6]-[#6]-[#16+]-[#6]-1", "[#6]-1-[#6]-[#6]-[#16+]-[#6]-[#6]-1"]),
    ("sulfonium", ["[#16+]"]) ]

/-- `Anion.family_smarts_patterns`, in source insertion order. -/
def Anion.family_smarts_patterns : List (String × List String) :=
  [ ("bistriflamides", ["O=S(=O)[#7-]S(=O)=O", "[#7-]S(=O)=O"]),
    ("cyclic amides",
      ["c1c[n-]cn1", "c1cn[n-]c1", "c1nnn[n-]1", "c1c[n-]nn1", "c1nc[n-]n1",
       "c1cc[n-]c1"]),
    ("methanides", ["[#6-]"]),
    ("borates", ["[#5-]"]),
    ("phosphates", ["[#15-]"]),
    ("inorganics",
      ["[F,Cl,Br,I;-]", "[#8-]-[#7+](-[#8-])=O", "[#16-]C#N",
       "[#8-][Cl+3]([#8-])([#8-])[#8-]", "[#7-]=[N+]=[#7-]"]),
    ("sulfates", ["[#8]S([#8-])(=O)=O"]),
    ("sulfonates", ["[#8-]S(=O)=O"]),
    ("organic phosphates",
      ["[#8]P([#8])([#8-])=O", "[#8]-[#15](-[#8-])=O", "[#8-]-[#15]=O"]),
    ("carboxylates", ["[#8-]-[#6]=O"]),
    ("phenolates", ["[#8-]-c:1:*:*:*:*:*:1"]),
    ("carboanions", ["[#8-]-[#6]=[#6]"]),
    ("amides", ["[#7-]"]) ]

/-- `Cation.chemical_family`. -/
def Cation.chemical_family (i : Ion) : Option String :=
  Ion.chemical_family_of Cation.family_smarts_patterns i

/-- `Anion.chemical_family`. -/
def Anion.chemical_family (i : Ion) : Option String :=
  Ion.chemical_family_of Anion.family_smarts_patterns i

/-- The `IonicLiquid` dataclass (the cation/anion distinction lives in the
smart constructors that validated them). -/
structure IonicLiquid where
  cation : Ion
  anion : Ion
deriving DecidableEq, Repr

/-- `IonicLiquid.smiles` property: `f"{cation.smiles}.{anion.smiles}"`. -/
def IonicLiquid.smiles (il : IonicLiquid) : List Char :=
  il.cation.smiles ++ '.' :: il.anion.smiles

/-- `IonicLiquid.atom_count` property. -/
def IonicLiquid.atom_count (il : IonicLiquid) : Nat :=
  il.cation.atom_count + il.anion.atom_count

/-- `IonicLiquid.molecular_weight` property. -/
def IonicLiquid.molecular_weight (il : IonicLiquid) : Rat :=
  il.cation.molecular_weight + il.anion.molecular_weight

/-- `IonicLiquid.element_set` property. -/
def IonicLiquid.element_set (il : IonicLiquid) : Finset String :=
  il.cation.element_set ∪ il.anion.element_set

/-- Python `smiles.split(".")` on a character list: `[] ↦ [""]`,
separators delimit possibly-empty fragments. -/
def splitOnDot : List Char → List (List Char)
  | [] => [[]]
  | c :: cs =>
    if c = '.' then [] :: splitOnDot cs
    else
      match splitOnDot cs with
      | [] => [[c]]
      | h :: t => (c :: h) :: t

/-- `IonicLiquid.from_smiles`: split on `"."` (two-name unpacking raises
`ValueError` unless exactly two fragments), parse both fragments as generic
`Ion`s, swap so the non-negative one is left, then validate as
`Cation`/`Anion`. -/
def IonicLiquid.from_smiles (parse : List Char → Except Err Mol)
    (smiles : List Char) : Except Err IonicLiquid := do
  match splitOnDot smiles with
  | [left_smiles, right_smiles] =>
    let left_ion ← ionFromSmiles Ion.make parse left_smiles
    let right_ion ← ionFromSmiles Ion.make parse right_smiles
    let (left_ion, right_ion) :=
      if left_ion.charge < 0 then (right_ion, left_ion) else (left_ion, right_ion)
    let cation ← Cation.make left_ion.smiles left_ion.rdkit_mol
    let anion ← Anion.make right_ion.smiles right_ion.rdkit_mol
    .ok ⟨cation, anion⟩
  | _ => .error (.valueError "values to unpack")

/-! ### Featurizers (`featurization/featurizers.py`) -/

/-- A raw descriptor value as `CalcMolDescriptors` may return it, classified by
the observable behaviour of Python `float(value)`: it yields a finite number
(`num`), yields the floating NaN value (`nan`), is Python `None` (`pynone`,
`float` raises `TypeError`), or is some other non-coercible object (`nonNum`,
`float` raises `TypeError` or `ValueError`). After `IonFeaturizer.__call__`
rebinds `features[name]`, the same type describes the stored values (floats or
`None`). -/
inductive PyObj where
  | num (q : Rat)
  | nan
  | pynone
  | nonNum (tag : String)
deriving DecidableEq, Repr

/-- Python `float(value)`: `some` of the resulting float (a finite number or
NaN), or `none` when it raises `TypeError`/`ValueError`. -/
def pyFloat : PyObj → Option PyObj
  | .num q => some (.num q)
  | .nan => some .nan
  | .pynone => none
  | .nonNum _ => none

/-- One iteration of the loop in `IonFeaturizer.__call__`:
`try: features[name] = float(value) except (TypeError, ValueError):
features[name] = None`. -/
def coerceInPlace (v : PyObj) : PyObj :=
  match pyFloat v with
  | some f => f
  | none => .pynone

/-- The state of the `features` dict after the rebinding loop of
`IonFeaturizer.__call__` has run over it (keys and order unchanged, every
value replaced by its coercion or `None`). -/
def featurizeMutate (features : List (String × PyObj)) : List (String × PyObj) :=
  features.map (fun p => (p.1, coerceInPlace p.2))

/-- `IonFeaturizer.__call__` given the dict `_featurize` returned: mutate the
values in place, then return the filtered comprehension
`{name: value for ... if value is not None}`. -/
def ionFeaturizerCallCore (features : List (String × PyObj)) :
    List (String × PyObj) :=
  (featurizeMutate features).filter (fun p => p.2 != PyObj.pynone)

/-- `IonFeaturizer.__call__` for a featurizer whose `_featurize` is the pure
function `featurize`. -/
def ionFeaturizerCall (featurize : Ion → List (String × PyObj)) (ion : Ion) :
    List (String × PyObj) :=
  ionFeaturizerCallCore (featurize ion)

/-! ### The memoization layer (`ilml/memory.py`) -/

/-- Modelled from the spec: the module `ilml.memory` (the `cache` wrapper used
for `rdkit_calc_mol_descriptors` and `ilt_get_entry`) is not among the sources;
per the spec, `cache(f)` stores results in a process-wide table keyed by the
argument as passed, a second call with an identical argument returns the
stored result without invoking `f`, and nothing is ever evicted. The table is
explicit state; the returned `Nat` counts how many times the wrapped call
invoked the underlying `f` (0 or 1). -/
def cacheCall {α β : Type} [DecidableEq α] (f : α → β)
    (table : List (α × β)) (x : α) : β × List (α × β) × Nat :=
  match table.lookup x with
  | some y => (y, table, 0)
  | none => (f x, (x, f x) :: table, 1)

/-- The descriptor cache behind `rdkit_calc_mol_descriptors = cache(CalcMolDescriptors)`:
structure handle → the stored descriptor dict. -/
abbrev DescCache := List (Mol × List (String × PyObj))

/-- `rdkit_calc_mol_descriptors(mol)` with the cache state explicit: return the
stored dict if present, else compute it with the underlying
`CalcMolDescriptors` (parameter `descFn`, at the toolkit boundary) and store
it. The returned dict is the very object the cache stores (Python aliasing). -/
def rdkitCalcMolDescriptors (descFn : Mol → List (String × PyObj))
    (st : DescCache) (m : Mol) : List (String × PyObj) × DescCache :=
  match st.lookup m with
  | some d => (d, st)
  | none => (descFn m, (m, descFn m) :: st)

/-- `RDKitIonFeaturizer.__call__` with the descriptor-cache state explicit:
`_featurize` returns the cached dict, and the rebinding loop of
`IonFeaturizer.__call__` mutates that dict in place — since the cache entry is
the same object, the cache state afterwards holds the mutated dict. -/
def rdkitIonFeaturizerCall (descFn : Mol → List (String × PyObj))
    (st : DescCache) (ion : Ion) : List (String × PyObj) × DescCache :=
  let (features, st1) := rdkitCalcMolDescriptors descFn st ion.rdkit_mol
  let mutated := featurizeMutate features
  let st2 := st1.map (fun e => if e.1 = ion.rdkit_mol then (e.1, mutated) else e)
  (mutated.filter (fun p => p.2 != PyObj.pynone), st2)

/-! ### Combining rules (`featurization/combining_rules.py`) -/

namespace CombiningRules

/-- `sum`: `cation_feature + anion_feature`. -/
def sum (_il : IonicLiquid) (cation_feature anion_feature : Rat) : Rat :=
  cation_feature + anion_feature

/-- `min_abs`: `float(min(abs(cation_feature), abs(anion_feature)))`. -/
def min_abs (_il : IonicLiquid) (cation_feature anion_feature : Rat) : Rat :=
  min |cation_feature| |anion_feature|

/-- `max_abs`: `float(max(abs(cation_feature), abs(anion_feature)))`. -/
def max_abs (_il : IonicLiquid) (cation_feature anion_feature : Rat) : Rat :=
  max |cation_feature| |anion_feature|

/-- `mean`: `0.5 * (cation_feature + anion_feature)`. -/
def mean (_il : IonicLiquid) (cation_feature anion_feature : Rat) : Rat :=
  (0.5 : Rat) * (cation_feature + anion_feature)

/-- `mean_atom_count`. -/
def mean_atom_count (il : IonicLiquid) (cation_feature anion_feature : Rat) : Rat :=
  ((il.cation.atom_count : Rat) * cation_feature
    + (il.anion.atom_count : Rat) * anion_feature) / (il.atom_count : Rat)

/-- `mean_molecular_weight`. -/
def mean_molecular_weight (il : IonicLiquid) (cation_feature anion_feature : Rat) :
    Rat :=
  (il.cation.molecular_weight * cation_feature
    + il.anion.molecular_weight * anion_feature) / il.molecular_weight

end CombiningRules

/-- The `combining_rules` registry: the `"concatenate"` sentinel followed by
the `@register`-ed functions in module order. -/
def combining_rules : List (String × Option (IonicLiquid → Rat → Rat → Rat)) :=
  [ ("concatenate", none),
    ("sum", some CombiningRules.sum),
    ("min_abs", some CombiningRules.min_abs),
    ("max_abs", some CombiningRules.max_abs),
    ("mean", some CombiningRules.mean),
    ("mean_atom_count", some CombiningRules.mean_atom_count),
    ("mean_molecular_weight", some CombiningRules.mean_molecular_weight) ]

/-- `IonicLiquidFeaturizer.__call__`, with the ion featurizer abstracted as a
pure function into float-valued dicts (the dicts `IonFeaturizer.__call__`
produces hold no `None`, so values are plain numbers here).
Mode A iterates `set(cation_features) | set(anion_features)`; the iteration
order of a Python set is unspecified, so the union is laid out here as the
cation names followed by the anion-only names — both whether the call raises
and the resulting mapping are independent of that order. For each name the
source evaluates `cation_features[name]` (a `dict` indexing that raises
`KeyError` when the name is absent) and `anion_features.get(name)` (absence
gives `None`, which the `continue` guard skips). Mode B merges the two
suffix-renamed dicts; their keys cannot collide (distinct suffixes), so the
merge is the concatenation. -/
def ionicLiquidFeaturizerCall (ion_featurizer : Ion → List (String × Rat))
    (combining_rule : Option (IonicLiquid → Rat → Rat → Rat))
    (ionic_liquid : IonicLiquid) : Except Err (List (String × Rat)) :=
  let cation_features := ion_featurizer ionic_liquid.cation
  let anion_features := ion_featurizer ionic_liquid.anion
  match combining_rule with
  | some rule =>
    let cation_names := cation_features.map Prod.fst
    let feature_names := cation_names ++
      ((anion_features.map Prod.fst).filter (fun n => !cation_names.contains n))
    feature_names.foldlM
      (fun acc name =>
        match cation_features.lookup name with
        | none => .error (.keyError name)
        | some cation_feature =>
          match anion_features.lookup name with
          | none => .ok acc
          | some anion_feature =>
            .ok (acc ++ [(name, rule ionic_liquid cation_feature anion_feature)]))
      []
  | none =>
    .ok ((cation_features.map (fun p => (p.1 ++ "_cation", p.2)))
      ++ (anion_features.map (fun p => (p.1 ++ "_anion", p.2))))

/-! ### Concrete toolkit fixtures used in concrete evaluations -/

/-- A +1 structure (e.g. a simple cation). -/
def molCat : Mol := ⟨1, ["N", "C", "C"], ['q'], 10, []⟩

/-- A −1 structure (e.g. a simple anion). -/
def molAn : Mol := ⟨-1, ["Cl"], ['w'], 20, []⟩

/-- A neutral structure. -/
def molZero : Mol := ⟨0, ["O"], ['z'], 18, []⟩

/-- A −2 structure. -/
def molNeg2 : Mol := ⟨-2, ["S"], ['v'], 32, []⟩

/-- A +3 structure. -/
def molPos3 : Mol := ⟨3, ["P"], ['u'], 31, []⟩

/-- A +1 structure matching both the pyridinium pattern (declared 6th in
`Cation.family_smarts_patterns`) and the generic ammonium pattern (declared
14th). -/
def molPyr : Mol := ⟨1, ["N", "C", "C", "C", "C", "C"], ['p'], 79,
  ["c1cc[n+]cc1", "[#7+]"]⟩

/-- A concrete toolkit `parse` for witnesses: three known notations, everything
else is a syntax error. -/
def parse0 : List Char → Except Err Mol := fun s =>
  if s = ['c'] then .ok molCat
  else if s = ['a'] then .ok molAn
  else if s = ['z'] then .ok molZero
  else .error (.parseError "invalid SMILES")

/-- The cation fixture as an `Ion`. -/
def ionCat : Ion := ⟨['q'], molCat⟩

/-- The anion fixture as an `Ion`. -/
def ionAn : Ion := ⟨['w'], molAn⟩

/-- The pyridinium fixture as an `Ion`. -/
def ionPyr : Ion := ⟨['p'], molPyr⟩

/-- A concrete ionic liquid built from the fixtures. -/
def ilCA : IonicLiquid := ⟨ionCat, ionAn⟩

/-- Ion featurizer fixture: cation features `{"A": 1.0}`, anion features
`{"A": 2.0, "B": 3.0}` (the spec's Mode A vs Mode B example). -/
def featAB : Ion → List (String × Rat) := fun i =>
  if i.charge < 0 then [("A", 2), ("B", 3)] else [("A", 1)]

/-- Ion featurizer fixture: cation features `{"A": 1.0, "C": 5.0}`, anion
features `{"A": 2.0}` (a cation-only extra name). -/
def featCA : Ion → List (String × Rat) := fun i =>
  if i.charge < 0 then [("A", 2)] else [("A", 1), ("C", 5)]

/-- A raw descriptor dict fixture with one value of each coercion behaviour. -/
def rawDescs : List (String × PyObj) :=
  [("MolWt", PyObj.num 100), ("Kappa", PyObj.nonNum "undefined"),
   ("Chi", PyObj.nan), ("Ipc", PyObj.pynone)]

/-- An underlying `CalcMolDescriptors` fixture. -/
def descFn0 : Mol → List (String × PyObj) := fun _ => rawDescs

/-! ### Theorems -/

/-- A dot-free string splits to itself. -/
theorem splitOnDot_no_dot : ∀ (l : List Char), '.' ∉ l → splitOnDot l = [l] := by
  intro l
  induction l with
  | nil => intro _; rfl
  | cons c cs ih =>
    intro h
    simp only [List.mem_cons, not_or] at h
    have h1 : ¬ c = '.' := fun e => h.1 e.symm
    simp [splitOnDot, h1, ih h.2]

/-- Splitting `c ++ "." ++ a` for dot-free `c`, `a` yields exactly `[c, a]`. -/
theorem splitOnDot_append : ∀ (c : List Char), '.' ∉ c → ∀ (a : List Char),
    '.' ∉ a → splitOnDot (c ++ '.' :: a) = [c, a] := by
  intro c
  induction c with
  | nil => intro _ a ha; simp [splitOnDot, splitOnDot_no_dot a ha]
  | cons ch cs ih =>
    intro hc a ha
    simp only [List.mem_cons, not_or] at hc
    have h1 : ¬ ch = '.' := fun e => hc.1 e.symm
    simp [splitOnDot, h1, ih hc.2 a ha]

/-- `chemicalFamily` returns `none` exactly when no family's pattern matches. -/
theorem chemicalFamily_eq_none_iff (tbl : List (String × List String)) (m : Mol) :
    chemicalFamily tbl m = none ↔ ∀ e ∈ tbl, familyMatch m e.2 = false := by
  induction tbl with
  | nil => simp [chemicalFamily]
  | cons hd rest ih =>
    by_cases h : familyMatch m hd.2 = true
    · simp [chemicalFamily, h]
    · simp only [Bool.not_eq_true] at h
      simp [chemicalFamily, h, ih]

/-- `chemicalFamily` returns the family at the first matching index. -/
theorem chemicalFamily_first (tbl : List (String × List String)) (m : Mol) :
    ∀ (k : Nat) (hk : k < tbl.length),
      familyMatch m (tbl.get ⟨k, hk⟩).2 = true →
      (∀ j (hj : j < k), familyMatch m (tbl.get ⟨j, hj.trans hk⟩).2 = false) →
      chemicalFamily tbl m = some (tbl.get ⟨k, hk⟩).1 := by
  induction tbl with
  | nil => intro k hk; exact absurd hk (Nat.not_lt_zero k)
  | cons hd rest ih =>
    intro k hk hmatch hpre
    cases k with
    | zero =>
      simp only [List.get] at hmatch ⊢
      simp [chemicalFamily, hmatch]
    | succ k =>
      have h0 : familyMatch m hd.2 = false := by
        have := hpre 0 (Nat.succ_pos k)
        simpa [List.get] using this
      have hrec := ih k (Nat.lt_of_succ_lt_succ hk)
        (by simpa [List.get] using hmatch)
        (fun j hj => by simpa [List.get] using hpre (j + 1) (Nat.succ_lt_succ hj))
      simp only [List.get]
      simpa [chemicalFamily, h0] using hrec

/-- If `chemicalFamily` returns a family, that family sits at the first
matching index of the table. -/
theorem chemicalFamily_some_elim (tbl : List (String × List String)) (m : Mol)
    (fam : String) :
    chemicalFamily tbl m = some fam →
      ∃ k, ∃ hk : k < tbl.length, (tbl.get ⟨k, hk⟩).1 = fam
        ∧ familyMatch m (tbl.get ⟨k, hk⟩).2 = true
        ∧ ∀ j (hj : j < k), familyMatch m (tbl.get ⟨j, hj.trans hk⟩).2 = false := by
  induction tbl with
  | nil => intro h; simp [chemicalFamily] at h
  | cons hd rest ih =>
    intro h
    by_cases hb : familyMatch m hd.2 = true
    · refine ⟨0, Nat.succ_pos _, ?_, by simpa [List.get] using hb, ?_⟩
      · have : some hd.1 = some fam := by simpa [chemicalFamily, hb] using h
        simpa [List.get] using Option.some.inj this
      · intro j hj
        exact absurd hj (Nat.not_lt_zero j)
    · have hb' : familyMatch m hd.2 = false := by simpa using hb
      have h' : chemicalFamily rest m = some fam := by
        simpa [chemicalFamily, hb'] using h
      obtain ⟨k, hk, h1, h2, h3⟩ := ih h'
      refine ⟨k + 1, Nat.succ_lt_succ hk, by simpa [List.get] using h1,
        by simpa [List.get] using h2, ?_⟩
      intro j hj
      cases j with
      | zero => simpa [List.get] using hb'
      | succ j =>
        have := h3 j (Nat.lt_of_succ_lt_succ hj)
        simpa [List.get] using this

/-- C6: `chemical_family` iterates the family table in its declared order and
returns the first family with at least one substructure match (`none` when no
pattern matches); an earlier-declared matching family always beats any
later-declared one. -/
theorem chemical_family_first_match_policy (tbl : List (String × List String))
    (i : Ion) :
    (∀ fam, Ion.chemical_family_of tbl i = some fam ↔
      ∃ k, ∃ hk : k < tbl.length, (tbl.get ⟨k, hk⟩).1 = fam
        ∧ familyMatch i.rdkit_mol (tbl.get ⟨k, hk⟩).2 = true
        ∧ ∀ j, ∀ hj : j < k,
            familyMatch i.rdkit_mol (tbl.get ⟨j, hj.trans hk⟩).2 = false)
    ∧ (Ion.chemical_family_of tbl i = none ↔
        ∀ e ∈ tbl, familyMatch i.rdkit_mol e.2 = false)
    ∧ (∀ k1 k2 : Nat, ∀ hk1 : k1 < tbl.length, k2 < tbl.length → k1 < k2 →
        familyMatch i.rdkit_mol (tbl.get ⟨k1, hk1⟩).2 = true →
        (∀ j, ∀ hj : j < k1,
          familyMatch i.rdkit_mol (tbl.get ⟨j, hj.trans hk1⟩).2 = false) →
        Ion.chemical_family_of tbl i = some (tbl.get ⟨k1, hk1⟩).1) := by
  refine ⟨fun fam => ⟨chemicalFamily_some_elim tbl i.rdkit_mol fam, ?_⟩,
    chemicalFamily_eq_none_iff tbl i.rdkit_mol, ?_⟩
  · rintro ⟨k, hk, h1, h2, h3⟩
    have := chemicalFamily_first tbl i.rdkit_mol k hk h2 h3
    rw [h1] at this
    exact this
  · intro k1 _ hk1 _ _ hmatch hpre
    exact chemicalFamily_first tbl i.rdkit_mol k1 hk1 hmatch hpre

/-- C6 witness: a concrete ion matching both the pyridinium patterns (6th
family of `Cation.family_smarts_patterns`) and the generic ammonium pattern
(14th family) is classified as pyridinium. -/
theorem chemical_family_first_match_policy_witness :
    Cation.chemical_family ionPyr = some "pyridinium" :=
  (chemical_family_first_match_policy Cation.family_smarts_patterns ionPyr).2.2
    5 13 (by decide) (by decide) (by decide) (by decide) (by decide)

/-- C2: a toolkit `ParseError` on a malformed notation propagates unchanged out
of `from_smiles` — through the class-generic `ionFromSmiles` (hence
`Ion`/`Cation`/`Anion.from_smiles`, for any constructor `mk`), and through
`IonicLiquid.from_smiles` when a fragment is malformed. -/
theorem parse_errors_propagate :
    (∀ (mk : List Char → Mol → Except Err Ion)
        (parse : List Char → Except Err Mol) (s : List Char) (msg : String),
      parse s = .error (.parseError msg) →
      ionFromSmiles mk parse s = .error (.parseError msg))
    ∧ (∀ (parse : List Char → Except Err Mol) (l r : List Char) (msg : String),
        '.' ∉ l → '.' ∉ r → parse l = .error (.parseError msg) →
        IonicLiquid.from_smiles parse (l ++ '.' :: r) =
          .error (.parseError msg)) := by
  constructor
  · intro mk parse s msg h
    simp [ionFromSmiles, h, Bind.bind, Except.bind]
  · intro parse l r msg hl hr h
    simp [IonicLiquid.from_smiles, splitOnDot_append l hl r hr, ionFromSmiles,
      h, Bind.bind, Except.bind]

/-- C2 witness: the concrete toolkit fixture rejects `"x"`, and both
`Cation.from_smiles` and `IonicLiquid.from_smiles` surface that `ParseError`. -/
theorem parse_errors_propagate_witness :
    ionFromSmiles Cation.make parse0 ['x'] = .error (.parseError "invalid SMILES")
    ∧ IonicLiquid.from_smiles parse0 ['x', '.', 'a'] =
        .error (.parseError "invalid SMILES") := by
  constructor
  · exact parse_errors_propagate.1 Cation.make parse0 ['x'] "invalid SMILES" rfl
  · exact parse_errors_propagate.2 parse0 ['x'] ['a'] "invalid SMILES"
      (by decide) (by decide) rfl

/-- C4: `IonicLiquid.from_smiles` fails with `InvalidChargeError` whenever both
fragments parse to charges of the same sign (it never silently picks a
cation/anion pairing), fails when the split does not yield exactly two
fragments, and fails when a fragment fails `Ion` validation (zero charge). -/
theorem from_smiles_invalid_pairings_fail (parse : List Char → Except Err Mol) :
    (∀ (l r : List Char) (ml mr : Mol), parse l = .ok ml → parse r = .ok mr →
      0 < getFormalCharge ml → 0 < getFormalCharge mr → '.' ∉ l → '.' ∉ r →
      IonicLiquid.from_smiles parse (l ++ '.' :: r) =
        .error (.invalidChargeError ("anions must have a negative charge, got "
          ++ formatSigned (getFormalCharge mr))))
    ∧ (∀ (l r : List Char) (ml mr : Mol), parse l = .ok ml → parse r = .ok mr →
      getFormalCharge ml < 0 → getFormalCharge mr < 0 → '.' ∉ l → '.' ∉ r →
      IonicLiquid.from_smiles parse (l ++ '.' :: r) =
        .error (.invalidChargeError ("cations must have a positive charge, got "
          ++ formatSigned (getFormalCharge mr))))
    ∧ (∀ s : List Char, (splitOnDot s).length ≠ 2 →
        IonicLiquid.from_smiles parse s = .error (.valueError "values to unpack"))
    ∧ (∀ (l r : List Char) (ml : Mol), parse l = .ok ml →
        getFormalCharge ml = 0 → '.' ∉ l → '.' ∉ r →
        IonicLiquid.from_smiles parse (l ++ '.' :: r) =
          .error (.invalidChargeError "ions must have a non-zero charge")) := by
  refine ⟨?_, ?_, ?_, ?_⟩
  · intro l r ml mr hl hr hml hmr hld hrd
    have h1 : ¬ ml.charge = 0 := by have := hml; simp [getFormalCharge] at this; omega
    have h2 : ¬ ml.charge < 0 := by have := hml; simp [getFormalCharge] at this; omega
    have h3 : ¬ mr.charge = 0 := by have := hmr; simp [getFormalCharge] at this; omega
    have h4 : 0 < mr.charge := by have := hmr; simp [getFormalCharge] at this; omega
    simp [IonicLiquid.from_smiles, splitOnDot_append l hld r hrd, ionFromSmiles,
      hl, hr, Ion.make, Cation.make, Anion.make, Ion.charge, getFormalCharge,
      h1, h2, h3, h4, Bind.bind, Except.bind, Pure.pure, Except.pure]
  · intro l r ml mr hl hr hml hmr hld hrd
    have h1 : ¬ ml.charge = 0 := by have := hml; simp [getFormalCharge] at this; omega
    have h2 : ml.charge < 0 := by have := hml; simp [getFormalCharge] at this; omega
    have h3 : ¬ mr.charge = 0 := by have := hmr; simp [getFormalCharge] at this; omega
    have h4 : mr.charge < 0 := by have := hmr; simp [getFormalCharge] at this; omega
    simp [IonicLiquid.from_smiles, splitOnDot_append l hld r hrd, ionFromSmiles,
      hl, hr, Ion.make, Cation.make, Anion.make, Ion.charge, getFormalCharge,
      h1, h2, h3, h4, Bind.bind, Except.bind, Pure.pure, Except.pure]
  · intro s hlen
    simp only [IonicLiquid.from_smiles]
    split
    · rename_i heq
      rw [heq] at hlen
      simp at hlen
    · rfl
  · intro l r ml hl hml hld hrd
    have hml0 : ml.charge = 0 := by simpa [getFormalCharge] using hml
    simp [IonicLiquid.from_smiles, splitOnDot_append l hld r hrd, ionFromSmiles,
      hl, Ion.make, getFormalCharge, hml0, Bind.bind, Except.bind]

/-- C4 witness: two cations, two anions, a dot-free notation and a zero-charge
fragment, each failing as claimed on the concrete toolkit fixture. -/
theorem from_smiles_invalid_pairings_fail_witness :
    IonicLiquid.from_smiles parse0 ['c', '.', 'c'] =
      .error (.invalidChargeError "anions must have a negative charge, got +1")
    ∧ IonicLiquid.from_smiles parse0 ['a', '.', 'a'] =
      .error (.invalidChargeError "cations must have a positive charge, got -1")
    ∧ IonicLiquid.from_smiles parse0 ['c'] = .error (.valueError "values to unpack")
    ∧ IonicLiquid.from_smiles parse0 ['z', '.', 'a'] =
      .error (.invalidChargeError "ions must have a non-zero charge") := by
  refine ⟨?_, ?_, ?_, ?_⟩
  · have h := (from_smiles_invalid_pairings_fail parse0).1 ['c'] ['c'] molCat molCat
      rfl rfl (by decide) (by decide) (by decide) (by decide)
    have e : ("anions must have a negative charge, got "
        ++ formatSigned (getFormalCharge molCat)) =
        "anions must have a negative charge, got +1" := by decide
    rw [e] at h
    exact h
  · have h := (from_smiles_invalid_pairings_fail parse0).2.1 ['a'] ['a'] molAn molAn
      rfl rfl (by decide) (by decide) (by decide) (by decide)
    have e : ("cations must have a positive charge, got "
        ++ formatSigned (getFormalCharge molAn)) =
        "cations must have a positive charge, got -1" := by decide
    rw [e] at h
    exact h
  · exact (from_smiles_invalid_pairings_fail parse0).2.2.1 ['c'] (by decide)
  · exact (from_smiles_invalid_pairings_fail parse0).2.2.2 ['z'] ['a'] molZero
      rfl (by decide) (by decide) (by decide)

/-- C7: for a valid cation notation `c` and anion notation `a` (dot-free,
parsing to a positive and a negative structure respectively),
`IonicLiquid.from_smiles` gives the same result on `c ++ "." ++ a` and
`a ++ "." ++ c`: the negative fragment always becomes the anion. -/
theorem from_smiles_order_independent (parse : List Char → Except Err Mol)
    (c a : List Char) (mc ma : Mol)
    (hc : parse c = .ok mc) (ha : parse a = .ok ma)
    (hcpos : 0 < getFormalCharge mc) (haneg : getFormalCharge ma < 0)
    (hcd : '.' ∉ c) (had : '.' ∉ a) :
    IonicLiquid.from_smiles parse (c ++ '.' :: a) =
      IonicLiquid.from_smiles parse (a ++ '.' :: c)
    ∧ IonicLiquid.from_smiles parse (c ++ '.' :: a) =
        .ok ⟨⟨molToSmiles mc, mc⟩, ⟨molToSmiles ma, ma⟩⟩ := by
  have h1 : ¬ mc.charge = 0 := by have := hcpos; simp [getFormalCharge] at this; omega
  have h2 : ¬ mc.charge < 0 := by have := hcpos; simp [getFormalCharge] at this; omega
  have h3 : ¬ ma.charge = 0 := by have := haneg; simp [getFormalCharge] at this; omega
  have h4 : ma.charge < 0 := by have := haneg; simp [getFormalCharge] at this; omega
  have h5 : ¬ 0 < ma.charge := by omega
  have e1 : IonicLiquid.from_smiles parse (c ++ '.' :: a) =
      .ok ⟨⟨molToSmiles mc, mc⟩, ⟨molToSmiles ma, ma⟩⟩ := by
    simp [IonicLiquid.from_smiles, splitOnDot_append c hcd a had, ionFromSmiles,
      hc, ha, Ion.make, Cation.make, Anion.make, Ion.charge, getFormalCharge,
      h1, h2, h3, h4, h5, Bind.bind, Except.bind, Pure.pure, Except.pure]
  have e2 : IonicLiquid.from_smiles parse (a ++ '.' :: c) =
      .ok ⟨⟨molToSmiles mc, mc⟩, ⟨molToSmiles ma, ma⟩⟩ := by
    simp [IonicLiquid.from_smiles, splitOnDot_append a had c hcd, ionFromSmiles,
      hc, ha, Ion.make, Cation.make, Anion.make, Ion.charge, getFormalCharge,
      h1, h2, h3, h4, h5, Bind.bind, Except.bind, Pure.pure, Except.pure]
  exact ⟨e1.trans e2.symm, e1⟩

/-- C7 witness: on the concrete toolkit fixture, `"c.a"` and `"a.c"` build the
same ionic liquid, with the `+1` structure as cation and the `−1` one as
anion. -/
theorem from_smiles_order_independent_witness :
    IonicLiquid.from_smiles parse0 ['c', '.', 'a'] =
      IonicLiquid.from_smiles parse0 ['a', '.', 'c']
    ∧ IonicLiquid.from_smiles parse0 ['c', '.', 'a'] =
        .ok ⟨⟨['q'], molCat⟩, ⟨['w'], molAn⟩⟩ :=
  from_smiles_order_independent parse0 ['c'] ['a'] molCat molAn rfl rfl
    (by decide) (by decide) (by decide) (by decide)

/-- C8: each registered built-in combining rule computes exactly its specified
formula for every ionic liquid and every pair of feature values, and on
`cation_value = 2.0`, `anion_value = 8.0` the four plain rules give
`10.0 / 2.0 / 8.0 / 5.0`. -/
theorem combining_rules_exact_formulas :
    ∀ (il : IonicLiquid) (c a : Rat),
      CombiningRules.sum il c a = c + a
      ∧ CombiningRules.min_abs il c a = min |c| |a|
      ∧ CombiningRules.max_abs il c a = max |c| |a|
      ∧ CombiningRules.mean il c a = (0.5 : Rat) * (c + a)
      ∧ CombiningRules.mean_atom_count il c a =
          ((il.cation.atom_count : Rat) * c + (il.anion.atom_count : Rat) * a)
            / (il.atom_count : Rat)
      ∧ CombiningRules.mean_molecular_weight il c a =
          (il.cation.molecular_weight * c + il.anion.molecular_weight * a)
            / il.molecular_weight
      ∧ combining_rules.lookup "sum" = some (some CombiningRules.sum)
      ∧ combining_rules.lookup "min_abs" = some (some CombiningRules.min_abs)
      ∧ combining_rules.lookup "max_abs" = some (some CombiningRules.max_abs)
      ∧ combining_rules.lookup "mean" = some (some CombiningRules.mean)
      ∧ combining_rules.lookup "mean_atom_count" =
          some (some CombiningRules.mean_atom_count)
      ∧ combining_rules.lookup "mean_molecular_weight" =
          some (some CombiningRules.mean_molecular_weight)
      ∧ CombiningRules.sum il 2 8 = 10
      ∧ CombiningRules.min_abs il 2 8 = 2
      ∧ CombiningRules.max_abs il 2 8 = 8
      ∧ CombiningRules.mean il 2 8 = 5 := by
  intro il c a
  refine ⟨rfl, rfl, rfl, rfl, rfl, rfl, rfl, rfl, rfl, rfl, rfl, rfl, ?_, ?_, ?_, ?_⟩
  · show (2 : Rat) + 8 = 10
    norm_num
  · show min |(2 : Rat)| |(8 : Rat)| = 2
    norm_num
  · show max |(2 : Rat)| |(8 : Rat)| = 8
    norm_num
  · show (0.5 : Rat) * (2 + 8) = 5
    norm_num

/-- C5: constructing an `Ion` from a zero-charge structure, a `Cation` from a
negatively-charged structure, or an `Anion` from a positively-charged structure
always fails with `InvalidChargeError`, and in the wrong-sign cases the message
ends with the signed charge value. -/
theorem construction_charge_validation (s : List Char) (m : Mol) :
    (getFormalCharge m = 0 →
      Ion.make s m = .error (.invalidChargeError "ions must have a non-zero charge")
      ∧ Cation.make s m =
          .error (.invalidChargeError "ions must have a non-zero charge")
      ∧ Anion.make s m =
          .error (.invalidChargeError "ions must have a non-zero charge"))
    ∧ (getFormalCharge m < 0 →
      Cation.make s m = .error (.invalidChargeError
        ("cations must have a positive charge, got "
          ++ formatSigned (getFormalCharge m)))
      ∧ ∃ pre, ("cations must have a positive charge, got "
          ++ formatSigned (getFormalCharge m)) =
            pre ++ formatSigned (getFormalCharge m))
    ∧ (0 < getFormalCharge m →
      Anion.make s m = .error (.invalidChargeError
        ("anions must have a negative charge, got "
          ++ formatSigned (getFormalCharge m)))
      ∧ ∃ pre, ("anions must have a negative charge, got "
          ++ formatSigned (getFormalCharge m)) =
            pre ++ formatSigned (getFormalCharge m)) := by
  refine ⟨fun h0 => ?_, fun hneg => ?_, fun hpos => ?_⟩
  · refine ⟨?_, ?_, ?_⟩ <;>
      simp [Ion.make, Cation.make, Anion.make, h0, Bind.bind, Except.bind]
  · have h0 : ¬ getFormalCharge m = 0 := by omega
    refine ⟨?_, "cations must have a positive charge, got ", rfl⟩
    simp [Ion.make, Cation.make, h0, Bind.bind, Except.bind, Ion.charge,
      getFormalCharge, hneg]
    simp [getFormalCharge] at hneg h0
    simp [hneg, h0]
  · have h0 : ¬ getFormalCharge m = 0 := by omega
    refine ⟨?_, "anions must have a negative charge, got ", rfl⟩
    simp [Ion.make, Anion.make, h0, Bind.bind, Except.bind, Ion.charge,
      getFormalCharge, hpos]
    simp [getFormalCharge] at hpos h0
    simp [hpos, h0]

/-- C5 witness: the three validations at concrete structures of charge 0, −2
and +3, with the rendered messages. -/
theorem construction_charge_validation_witness :
    Ion.make ['z'] molZero =
      .error (.invalidChargeError "ions must have a non-zero charge")
    ∧ Cation.make ['v'] molNeg2 =
      .error (.invalidChargeError "cations must have a positive charge, got -2")
    ∧ Anion.make ['u'] molPos3 =
      .error (.invalidChargeError "anions must have a negative charge, got +3") := by
  refine ⟨((construction_charge_validation ['z'] molZero).1 (by decide)).1, ?_, ?_⟩
  · have h := ((construction_charge_validation ['v'] molNeg2).2.1 (by decide)).1
    have e : ("cations must have a positive charge, got "
        ++ formatSigned (getFormalCharge molNeg2)) =
        "cations must have a positive charge, got -2" := by decide
    rw [e] at h
    exact h
  · have h := ((construction_charge_validation ['u'] molPos3).2.2 (by decide)).1
    have e : ("anions must have a negative charge, got "
        ++ formatSigned (getFormalCharge molPos3)) =
        "anions must have a negative charge, got +3" := by decide
    rw [e] at h
    exact h

/-- `float(value)` never returns `None`. -/
theorem pyFloat_ne_pynone (v f : PyObj) (h : pyFloat v = some f) :
    f ≠ PyObj.pynone := by
  cases v <;> simp [pyFloat] at h <;> simp [← h]

/-- A value kept by the rebinding loop is exactly what `float` returned. -/
theorem coerceInPlace_of_ne (v : PyObj) (h : coerceInPlace v ≠ PyObj.pynone) :
    pyFloat v = some (coerceInPlace v) := by
  cases v <;> simp [coerceInPlace, pyFloat] at h ⊢

/-- The rebinding loop never writes a non-coercible object back. -/
theorem coerceInPlace_ne_nonNum (v : PyObj) (tag : String) :
    coerceInPlace v ≠ PyObj.nonNum tag := by
  cases v <;> simp [coerceInPlace, pyFloat]

/-- A name absent from the raw dict is absent from the featurizer's result. -/
theorem lookup_core_eq_none (fs : List (String × PyObj)) (name : String)
    (h : name ∉ fs.map Prod.fst) :
    (ionFeaturizerCallCore fs).lookup name = none := by
  induction fs with
  | nil => rfl
  | cons hd rest ih =>
    simp only [List.map_cons, List.mem_cons, not_or] at h
    obtain ⟨h1, h2⟩ := h
    have hb : (name == hd.1) = false := by simpa using h1
    simp only [ionFeaturizerCallCore, featurizeMutate, List.map_cons,
      List.filter_cons]
    split
    · simp only [List.lookup, hb]
      simpa [ionFeaturizerCallCore, featurizeMutate] using ih h2
    · simpa [ionFeaturizerCallCore, featurizeMutate] using ih h2

/-- With unique keys, looking a name up in `IonFeaturizer.__call__`'s result is
looking it up in the raw dict and coercing. -/
theorem lookup_ionFeaturizerCallCore (fs : List (String × PyObj))
    (hnd : (fs.map Prod.fst).Nodup) (name : String) :
    (ionFeaturizerCallCore fs).lookup name = (fs.lookup name).bind pyFloat := by
  induction fs with
  | nil => rfl
  | cons hd rest ih =>
    simp only [List.map_cons, List.nodup_cons] at hnd
    obtain ⟨hni, hnd'⟩ := hnd
    by_cases he : name = hd.1
    · subst he
      have hbeq : (hd.1 == hd.1) = true := by simp
      rcases hv : pyFloat hd.2 with _ | f
      · have hc : coerceInPlace hd.2 = PyObj.pynone := by simp [coerceInPlace, hv]
        simp only [ionFeaturizerCallCore, featurizeMutate, List.map_cons,
          List.filter_cons, hc]
        rw [if_neg (by simp)]
        simp only [List.lookup, hbeq, hv, Option.bind]
        simpa [ionFeaturizerCallCore, featurizeMutate]
          using lookup_core_eq_none rest hd.1 hni
      · have hc : coerceInPlace hd.2 = f := by simp [coerceInPlace, hv]
        have hf : f ≠ PyObj.pynone := pyFloat_ne_pynone hd.2 f hv
        simp only [ionFeaturizerCallCore, featurizeMutate, List.map_cons,
          List.filter_cons, hc]
        rw [if_pos (by simpa [bne_iff_ne] using hf)]
        simp [List.lookup, hbeq, hv, Option.bind]
    · have hb : (name == hd.1) = false := by simpa using he
      simp only [ionFeaturizerCallCore, featurizeMutate, List.map_cons,
        List.filter_cons]
      split
      · simp only [List.lookup, hb]
        simpa [ionFeaturizerCallCore, featurizeMutate] using ih hnd'
      · simp only [List.lookup, hb]
        simpa [ionFeaturizerCallCore, featurizeMutate] using ih hnd'

/-- Every entry of the featurizer's result comes from a raw value whose
coercion succeeded. -/
theorem mem_core_exists_raw (fs : List (String × PyObj)) (p : String × PyObj)
    (hp : p ∈ ionFeaturizerCallCore fs) :
    ∃ raw, (p.1, raw) ∈ fs ∧ pyFloat raw = some p.2 := by
  simp only [ionFeaturizerCallCore, List.mem_filter, featurizeMutate,
    List.mem_map] at hp
  obtain ⟨⟨q, hq, he⟩, hne⟩ := hp
  subst he
  refine ⟨q.2, by simpa using hq, ?_⟩
  exact coerceInPlace_of_ne q.2 (by simpa [bne] using hne)

/-- C3 (amended): `IonFeaturizer.__call__` returns exactly the descriptors
whose raw value coerces via `float` without raising (NaN results included and
retained); values raising `TypeError`/`ValueError` are dropped; the call is a
total function of the raw dict, so no per-descriptor failure escapes. -/
theorem ion_featurizer_drops_exactly_uncoercible (fs : List (String × PyObj)) :
    ((fs.map Prod.fst).Nodup → ∀ name,
      (ionFeaturizerCallCore fs).lookup name = (fs.lookup name).bind pyFloat)
    ∧ (∀ p ∈ ionFeaturizerCallCore fs,
        ∃ raw, (p.1, raw) ∈ fs ∧ pyFloat raw = some p.2) :=
  ⟨fun h name => lookup_ionFeaturizerCallCore fs h name,
   fun p hp => mem_core_exists_raw fs p hp⟩

/-- C3 witness: on a raw dict with one value of each behaviour, the dropped
and kept names both agree with the lookup-and-coerce characterization. -/
theorem ion_featurizer_drops_exactly_uncoercible_witness :
    (ionFeaturizerCallCore rawDescs).lookup "Kappa" =
      (rawDescs.lookup "Kappa").bind pyFloat
    ∧ (ionFeaturizerCallCore rawDescs).lookup "MolWt" =
      (rawDescs.lookup "MolWt").bind pyFloat :=
  ⟨(ion_featurizer_drops_exactly_uncoercible rawDescs).1 (by decide) "Kappa",
   (ion_featurizer_drops_exactly_uncoercible rawDescs).1 (by decide) "MolWt"⟩

/-- C3 counterexample: a NaN-producing raw descriptor value is NOT absent from
the returned mapping — `float(nan)` succeeds, so the NaN value is retained. -/
theorem ion_featurizer_retains_nan :
    ionFeaturizerCallCore [("descNaN", PyObj.nan)] = [("descNaN", PyObj.nan)]
    ∧ ("descNaN", PyObj.nan) ∈ ionFeaturizerCallCore [("descNaN", PyObj.nan)] := by
  constructor <;> simp [ionFeaturizerCallCore, featurizeMutate, coerceInPlace,
    pyFloat, List.filter, bne, BEq.beq]

/-- A successful association-list lookup returns a stored pair. -/
theorem mem_of_lookup_eq_some {α β : Type} [DecidableEq α] :
    ∀ (l : List (α × β)) (x : α) (y : β), l.lookup x = some y → (x, y) ∈ l := by
  intro l
  induction l with
  | nil => intro x y h; simp [List.lookup] at h
  | cons hd rest ih =>
    intro x y h
    by_cases he : x = hd.1
    · subst he
      have hbeq : (hd.1 == hd.1) = true := by simp
      simp only [List.lookup, hbeq] at h
      have : hd.2 = y := Option.some.inj h
      subst this
      exact List.mem_cons_self _ _
    · have hb : (x == hd.1) = false := by simpa using he
      simp only [List.lookup, hb] at h
      exact List.mem_cons_of_mem hd (ih x y h)

/-- C9: (modelled from the spec, `ilml.memory` being absent from the sources)
the wrapped function's input/output behaviour is identical to `f` on any table
consistent with `f`; a second call with an identical argument returns the
stored result without invoking `f` (starting from a cold entry the two calls
invoke `f` exactly once in total, and equal results come back both times);
and no entry is ever evicted. -/
theorem cache_contract {α β : Type} [DecidableEq α] (f : α → β)
    (table : List (α × β)) (x : α) (hcons : ∀ p ∈ table, p.2 = f p.1) :
    (cacheCall f table x).1 = f x
    ∧ (cacheCall f (cacheCall f table x).2.1 x).1 = f x
    ∧ (cacheCall f (cacheCall f table x).2.1 x).1 = (cacheCall f table x).1
    ∧ (cacheCall f (cacheCall f table x).2.1 x).2.2 = 0
    ∧ (table.lookup x = none →
        (cacheCall f table x).2.2
          + (cacheCall f (cacheCall f table x).2.1 x).2.2 = 1)
    ∧ (∀ p ∈ table, p ∈ (cacheCall f (cacheCall f table x).2.1 x).2.1) := by
  rcases hl : table.lookup x with _ | y
  · have hbeq : (x == x) = true := by simp
    have hsecond : ((x, f x) :: table).lookup x = some (f x) := by
      simp [List.lookup, hbeq]
    refine ⟨?_, ?_, ?_, ?_, ?_, ?_⟩
    · simp [cacheCall, hl]
    · simp [cacheCall, hl, hsecond]
    · simp [cacheCall, hl, hsecond]
    · simp [cacheCall, hl, hsecond]
    · intro _
      simp [cacheCall, hl, hsecond]
    · intro p hp
      simp only [cacheCall, hl, hsecond]
      exact List.mem_cons_of_mem _ hp
  · have hy : y = f x := hcons (x, y) (mem_of_lookup_eq_some table x y hl)
    subst hy
    refine ⟨?_, ?_, ?_, ?_, ?_, ?_⟩ <;> simp [cacheCall, hl]

/-- C9 witness: wrapping the successor function over an empty table. -/
theorem cache_contract_witness :
    (cacheCall (fun n : Nat => n + 1) [] 0).1 = 1
    ∧ (cacheCall (fun n : Nat => n + 1)
        (cacheCall (fun n : Nat => n + 1) [] 0).2.1 0).1 =
      (cacheCall (fun n : Nat => n + 1) [] 0).1
    ∧ (cacheCall (fun n : Nat => n + 1) [] 0).2.2
        + (cacheCall (fun n : Nat => n + 1)
            (cacheCall (fun n : Nat => n + 1) [] 0).2.1 0).2.2 = 1 := by
  have h := cache_contract (fun n : Nat => n + 1) [] 0 (by simp)
  exact ⟨h.1, h.2.2.1, h.2.2.2.2.1 rfl⟩

/-- C10: on a cache miss, `RDKitIonFeaturizer` featurization leaves the
mutated dict in the process-wide descriptor cache: the stored dict is
`featurizeMutate` of the raw `CalcMolDescriptors` output, its non-coercible
entries are gone (overwritten with `None`), so whenever the raw dict had a
non-coercible entry the cached dict is not the raw result. -/
theorem rdkit_featurizer_mutates_cached_dict
    (descFn : Mol → List (String × PyObj)) (st : DescCache) (ion : Ion)
    (hmiss : st.lookup ion.rdkit_mol = none) :
    (rdkitIonFeaturizerCall descFn st ion).2.lookup ion.rdkit_mol =
      some (featurizeMutate (descFn ion.rdkit_mol))
    ∧ ∀ (name tag : String), (name, PyObj.nonNum tag) ∈ descFn ion.rdkit_mol →
        (name, PyObj.nonNum tag) ∉ featurizeMutate (descFn ion.rdkit_mol)
        ∧ featurizeMutate (descFn ion.rdkit_mol) ≠ descFn ion.rdkit_mol := by
  constructor
  · have hbeq : (ion.rdkit_mol == ion.rdkit_mol) = true := by simp
    simp [rdkitIonFeaturizerCall, rdkitCalcMolDescriptors, hmiss, List.lookup,
      hbeq]
  · intro name tag hmem
    have hnot : (name, PyObj.nonNum tag) ∉
        featurizeMutate (descFn ion.rdkit_mol) := by
      intro hin
      simp only [featurizeMutate, List.mem_map] at hin
      obtain ⟨q, _, he⟩ := hin
      exact coerceInPlace_ne_nonNum q.2 tag (congrArg Prod.snd he)
    exact ⟨hnot, fun he => hnot (he.symm ▸ hmem)⟩

/-- C10 witness: featurizing with a raw descriptor dict holding a
non-coercible `"Kappa"` entry, from an empty cache, stores the mutated dict. -/
theorem rdkit_featurizer_mutates_cached_dict_witness :
    (rdkitIonFeaturizerCall descFn0 [] ionCat).2.lookup ionCat.rdkit_mol =
      some (featurizeMutate rawDescs)
    ∧ ("Kappa", PyObj.nonNum "undefined") ∉ featurizeMutate rawDescs
    ∧ featurizeMutate rawDescs ≠ rawDescs := by
  have h := rdkit_featurizer_mutates_cached_dict descFn0 [] ionCat rfl
  have h2 := h.2 "Kappa" "undefined" (by simp [descFn0, rawDescs])
  exact ⟨h.1, h2.1, h2.2⟩

/-- C1: at the spec's own Mode A example (`cation_features={"A": 1.0}`,
`anion_features={"A": 2.0, "B": 3.0}`, rule `sum`) the call raises
`KeyError("B")` instead of returning `{"A": 3.0}`: the loop indexes
`cation_features[name]` over the union of names, so an anion-only name raises.
A cation-only extra name is silently dropped (second conjunct), and Mode B on
the same input gives the spec's concatenated mapping (third conjunct). -/
theorem mode_a_keyerror_on_anion_only_name :
    ionicLiquidFeaturizerCall featAB (some CombiningRules.sum) ilCA =
      .error (.keyError "B")
    ∧ ionicLiquidFeaturizerCall featCA (some CombiningRules.sum) ilCA =
      .ok [("A", 3)]
    ∧ ionicLiquidFeaturizerCall featAB none ilCA =
      .ok [("A_cation", 1), ("A_anion", 2), ("B_anion", 3)] := by
  refine ⟨?_, ?_, ?_⟩ <;>
    · simp [ionicLiquidFeaturizerCall, featAB, featCA, ilCA, ionCat, ionAn,
        Ion.charge, getFormalCharge, molCat, molAn, List.lookup,
        CombiningRules.sum, List.foldlM, Bind.bind, Except.bind,
        Pure.pure, Except.pure]
      try norm_num

end ILML
